import Mathlib

/-!
Shallow embedding of the linkedin-jobs-api client (src/index.ts) and proofs about it.

The embedding keeps the names of the source (`Query`, `getUrl`, `parseJobList`,
`sortJobsByAgoTime`, `getTotalPages`, `getJobs`, ...).  JavaScript strings are Lean
strings, processed over their character lists so that every definition is executable;
machine numbers are `Nat`/`Int`; a JavaScript value that can be `NaN` is an
`Option Int` with `none` for `NaN`; code that can throw returns `Except Unit`.
The HTTP transport and the DOM/selector engine are external collaborators of the
program; they enter the model as the data they hand over (the batch outcome list, the
scraped count text, the per-card raw fields).
-/

namespace LJA

instance {ε α : Type} [DecidableEq ε] [DecidableEq α] : DecidableEq (Except ε α) :=
  fun a b =>
    match a, b with
    | Except.error e, Except.error f => decidable_of_iff (e = f) (by simp)
    | Except.error _, Except.ok _ => isFalse (by simp)
    | Except.ok _, Except.error _ => isFalse (by simp)
    | Except.ok a, Except.ok b => decidable_of_iff (a = b) (by simp)

/-! JavaScript primitive models -/

/-- Numeric value of a list of decimal digit characters, most significant first. -/
def digitsVal (l : List Char) : Nat :=
  l.foldl (fun acc c => 10 * acc + (c.toNat - 48)) 0

/-- Longest decimal-digit prefix of `l`, as a number; `none` when `l` does not start
with a digit. -/
def digitPrefixVal (l : List Char) : Option Nat :=
  let ds := l.takeWhile Char.isDigit
  if ds.isEmpty then none else some (digitsVal ds)

/-- Model of JavaScript `parseInt(s, 10)`: skip leading whitespace, read an optional
sign and then the longest decimal-digit prefix; `none` models `NaN` when no digit
follows.  (Inputs outside this decimal grammar, e.g. hex prefixes, do not occur in
the relative-age labels this client parses.) -/
def parseIntJs (s : String) : Option Int :=
  match s.data.dropWhile Char.isWhitespace with
  | '-' :: rest => (digitPrefixVal rest).map (fun n => -(n : Int))
  | '+' :: rest => (digitPrefixVal rest).map (fun n => (n : Int))
  | t => (digitPrefixVal t).map (fun n => (n : Int))

/-- Whitespace-trim on a character list (both ends). -/
def trimChars (l : List Char) : List Char :=
  ((l.dropWhile Char.isWhitespace).reverse.dropWhile Char.isWhitespace).reverse

/-- Model of JavaScript `s.trim()`. -/
def jsTrim (s : String) : String :=
  String.mk (trimChars s.data)

/-- Model of JavaScript `Number(s)` on the string forms this client feeds it
(`limit` and `page` values): whitespace is trimmed, the empty string is `0`, an
optionally `-`-signed run of decimal digits is its value, and anything else is `NaN`
(`none`). -/
def jsNumber (s : String) : Option Int :=
  let t := trimChars s.data
  if t.isEmpty then some 0
  else match t with
    | '-' :: rest =>
      if !rest.isEmpty && rest.all Char.isDigit then some (-(digitsVal rest : Int)) else none
    | _ => if t.all Char.isDigit then some (digitsVal t) else none

/-- Model of JavaScript `arr.slice(0, m)` for an integer bound `m`; a negative `m`
counts back from the end of the array. -/
def jsSliceTo {α : Type} (l : List α) (m : Int) : List α :=
  if 0 ≤ m then l.take m.toNat else l.take ((l.length : Int) + m).toNat

/-- Does the character list start with the given pattern? -/
def startsWithL : List Char → List Char → Bool
  | _, [] => true
  | [], _ :: _ => false
  | c :: cs, d :: ds => c = d && startsWithL cs ds

/-- Does `sub` occur as a contiguous run inside `l`?  Model of JavaScript
`String.prototype.includes`. -/
def includesL : List Char → List Char → Bool
  | [], sub => startsWithL [] sub
  | c :: cs, sub => startsWithL (c :: cs) sub || includesL cs sub

/-- Model of JavaScript `s.includes(sub)`. -/
def jsIncludes (s sub : String) : Bool :=
  includesL s.data sub.data

/-- Model of JavaScript `s.toLowerCase()` (the labels are ASCII). -/
def jsToLower (s : String) : String :=
  String.mk (s.data.map Char.toLower)

/-- Model of JavaScript `str.split(sep)` for a one-character separator: the maximal
runs between separator occurrences, empty runs included. -/
def splitChar (sep : Char) : List Char → List (List Char)
  | [] => [[]]
  | c :: cs =>
    let r := splitChar sep cs
    if c = sep then [] :: r
    else
      match r with
      | [] => [[c]]
      | h :: t => (c :: h) :: t

/-- Model of JavaScript `Math.ceil(a / b)` on non-negative integers. -/
def jsCeilDiv (a b : Nat) : Nat := (a + b - 1) / b

/-! Data model -/

/-- Job record (interface `IJob`, lines 21-30): exactly eight string fields. -/
structure Job where
  position : String
  company : String
  location : String
  date : String
  salary : String
  jobUrl : String
  companyLogo : String
  agoTime : String
deriving DecidableEq, Repr

/-- Caller-supplied options (interface `IQueryOptions`, lines 6-19); a field the
caller leaves out is `none`. -/
structure QueryOptions where
  host : Option String := none
  keyword : Option String := none
  location : Option String := none
  dateSincePosted : Option String := none
  jobType : Option String := none
  remoteFilter : Option String := none
  salary : Option String := none
  experienceLevel : Option String := none
  sortBy : Option String := none
  limit : Option String := none
  page : Option String := none
deriving DecidableEq, Repr

/-- State of a `Query` object once the constructor has run; every field is a string,
as in the source. -/
structure Query where
  host : String := "www.linkedin.com"
  keyword : String := ""
  location : String := ""
  dateSincePosted : String := ""
  jobType : String := ""
  remoteFilter : String := ""
  salary : String := ""
  experienceLevel : String := ""
  sortBy : String := ""
  limit : String := ""
  page : String := ""
deriving DecidableEq, Repr

/-- JavaScript `a || b` for an optional string `a`: `b` when `a` is absent or empty
(falsy). -/
def jsOrDefault (a : Option String) (b : String) : String :=
  match a with
  | none => b
  | some s => if s = "" then b else s

/-- Model of the `Query` constructor (lines 52-68). -/
def mkQuery (o : QueryOptions) : Query :=
  { host := jsOrDefault o.host "www.linkedin.com"
    keyword := jsOrDefault (o.keyword.map jsTrim) ""
    location := jsOrDefault (o.location.map jsTrim) ""
    dateSincePosted := jsOrDefault o.dateSincePosted ""
    jobType := jsOrDefault o.jobType ""
    remoteFilter := jsOrDefault o.remoteFilter ""
    salary := jsOrDefault o.salary ""
    experienceLevel := jsOrDefault o.experienceLevel ""
    sortBy := jsOrDefault o.sortBy ""
    limit := jsOrDefault o.limit ""
    page := jsOrDefault o.page "" }

/-! Query parameter encoder (lines 70-184) -/

/-- Lookup `dateRange[s] || ""` of `getDateSincePosted` (lines 70-79). -/
def dateSincePostedCode (s : String) : String :=
  if s = "" then ""
  else if s = "past month" then "r2592000"
  else if s = "past week" then "r604800"
  else if s = "24hr" then "r86400"
  else if s = "1hr" then "r3600"
  else ""

/-- Lookup `experienceRange[s] || ""` of `getExperienceLevel` (lines 81-92). -/
def experienceLevelCode (s : String) : String :=
  if s = "" then ""
  else if s = "internship" then "1"
  else if s = "entry level" then "2"
  else if s = "associate" then "3"
  else if s = "senior" then "4"
  else if s = "director" then "5"
  else if s = "executive" then "6"
  else ""

/-- Lookup `jobTypeRange[s] || ""` of `getJobType` (lines 94-105). -/
def jobTypeCode (s : String) : String :=
  if s = "" then ""
  else if s = "full time" then "F"
  else if s = "part time" then "P"
  else if s = "contract" then "C"
  else if s = "temporary" then "T"
  else if s = "volunteer" then "V"
  else if s = "internship" then "I"
  else ""

/-- Lookup `remoteFilterRange[s] || ""` of `getRemoteFilter` (lines 127-135). -/
def remoteFilterCode (s : String) : String :=
  if s = "" then ""
  else if s = "on-site" then "1"
  else if s = "remote" then "2"
  else if s = "hybrid" then "3"
  else ""

/-- Lookup `salaryRange[s] || ""` of `getSalary` (lines 137-147); the numeric object
keys are strings in JavaScript. -/
def salaryCode (s : String) : String :=
  if s = "" then ""
  else if s = "40000" then "1"
  else if s = "60000" then "2"
  else if s = "80000" then "3"
  else if s = "100000" then "4"
  else if s = "120000" then "5"
  else ""

/-- Method `getDateSincePosted` of `Query`. -/
def getDateSincePosted (q : Query) : String := dateSincePostedCode q.dateSincePosted

/-- Method `getExperienceLevel` of `Query`. -/
def getExperienceLevel (q : Query) : String := experienceLevelCode q.experienceLevel

/-- Method `getJobType` of `Query`. -/
def getJobType (q : Query) : String := jobTypeCode q.jobType

/-- Method `getRemoteFilter` of `Query`. -/
def getRemoteFilter (q : Query) : String := remoteFilterCode q.remoteFilter

/-- Method `getSalary` of `Query`. -/
def getSalary (q : Query) : String := salaryCode q.salary

/-- Method `getPage` (lines 149-151): `Number(this.page) * 25`; `none` is `NaN`. -/
def getPage (q : Query) : Option Int :=
  (jsNumber q.page).map (fun p => p * 25)

/-- Rendered value of the always-appended `start` parameter (line 180):
`(start + this.getPage()).toString()`. -/
def startParamValue (q : Query) (start : Nat) : String :=
  match getPage q with
  | some v => toString ((start : Int) + v)
  | none => "NaN"

/-- Model of `getUrl` (lines 170-184) at the level of the appended query parameters,
in append order; `URLSearchParams.toString` renders exactly these key/value pairs
into the final URL. -/
def getUrlParams (q : Query) (start : Nat) : List (String × String) :=
  (if q.keyword ≠ "" then [("keywords", q.keyword)] else []) ++
  (if q.location ≠ "" then [("location", q.location)] else []) ++
  (if (getDateSincePosted q).length > 0 then [("f_TPR", getDateSincePosted q)] else []) ++
  (if (getSalary q).length > 0 then [("f_SB2", getSalary q)] else []) ++
  (if (getExperienceLevel q).length > 0 then [("f_E", getExperienceLevel q)] else []) ++
  (if (getRemoteFilter q).length > 0 then [("f_WT", getRemoteFilter q)] else []) ++
  (if (getJobType q).length > 0 then [("f_JT", getJobType q)] else []) ++
  [("start", startParamValue q start)] ++
  (if q.sortBy = "relevant" then [("sortBy", "R")] else [])

/-! Page count estimator (lines 186-232) -/

/-- Model of `text.replace(/[^\d]/g, "")`: the digit characters of the scraped
job-count indicator text. -/
def digitsOf (s : String) : List Char := s.data.filter Char.isDigit

/-- Model of line 222: `parseInt(jobsCountText.replace(/[^\d]/g, "") || "0", 10)`. -/
def jobsCountOf (text : String) : Nat :=
  let ds := digitsOf text
  if ds.isEmpty then 0 else digitsVal ds

/-- Model of `getTotalPages` (lines 186-232) from the scraped job-count indicator
text on: the input is `.ok text` when the request and the selector scan succeeded,
and `.error ()` for any network or parse failure, which the `catch` answers with the
hard-coded 40.  The function is total: the estimator never raises to its caller. -/
def getTotalPages (r : Except Unit String) : Nat :=
  match r with
  | .error _ => 40
  | .ok text => min (max 1 (jsCeilDiv (jobsCountOf text) 25)) 40

/-! Result sorter (lines 107-125) -/

/-- Value of `convertToMinutes` as the comparator sees it: an integer number of
minutes, `Infinity` for unsupported units, or `NaN` when the leading token is not
numeric. -/
inductive MinVal where
  | nan
  | inf
  | int (i : Int)
deriving DecidableEq, Repr

/-- Model of `convertToMinutes` (lines 108-120).  `Except.error` models the
`TypeError` thrown when the lower-cased label contains no space: `split(" ")` then
yields a single token, `unit` is `undefined`, and `unit.includes("hour")` throws. -/
def convertToMinutes (timeStr : String) : Except Unit MinVal :=
  let t := jsToLower timeStr
  if jsIncludes t "just now" then .ok (.int 0)
  else
    match splitChar ' ' t.data with
    | [] => .error ()
    | [_] => .error ()
    | numStr :: unit :: _ =>
      let num := parseIntJs (String.mk numStr)
      if includesL unit "hour".data then
        .ok (match num with | none => .nan | some i => .int (i * 60))
      else if includesL unit "minute".data then
        .ok (match num with | none => .nan | some i => .int i)
      else .ok .inf

/-- Sign test of the comparator difference `convertToMinutes a - convertToMinutes b`
as the ECMAScript sort consumes it: a `NaN` comparator result counts as `0`
(`Infinity - Infinity` is `NaN`, hence equal). -/
def minValLe : MinVal → MinVal → Bool
  | .nan, _ => true
  | _, .nan => true
  | .inf, .inf => true
  | .inf, .int _ => false
  | .int _, .inf => true
  | .int i, .int j => i ≤ j

/-- Comparator of line 122-124 as a boolean order on jobs; the catch-all branch is
junk used only when a label does not parse, in which case the surrounding sort
throws instead of consulting it. -/
def jobLe (a b : Job) : Bool :=
  match convertToMinutes a.agoTime, convertToMinutes b.agoTime with
  | .ok x, .ok y => minValLe x y
  | _, _ => true

/-- Model of `sortJobsByAgoTime` (lines 107-125): `[...jobs].sort(cmp)`.  With at
most one element the comparator is never invoked; otherwise every element takes part
in at least one comparison, so a label that does not parse makes the call throw
(`.error`).  A successful call is the stable sort by derived minute value, which the
ECMAScript specification mandates; a stable sort by a total preorder has a unique
result, rendered here by insertion sort. -/
def sortJobsByAgoTime (jobs : List Job) : Except Unit (List Job) :=
  if jobs.length ≤ 1 then .ok jobs
  else if jobs.all (fun j => (convertToMinutes j.agoTime).isOk) then
    .ok (List.insertionSort (fun a b => jobLe a b) jobs)
  else .error ()

/-! HTML job extractor (lines 264-314) -/

/-- Raw per-card fields the selector engine (cheerio) hands over for one `li`
element, before the record-level processing of lines 272-302.  A `.text()` result is
always a string; an `.attr()` result may be absent. -/
structure RawItem where
  titleText : String := ""
  subtitleText : String := ""
  locationText : String := ""
  timeDatetime : Option String := none
  salaryText : String := ""
  fullLinkHref : Option String := none
  anchorHref : Option String := none
  logoDelayedUrl : Option String := none
  listdateNewText : String := ""
  listdateText : String := ""
deriving DecidableEq, Repr

/-- Worker for `collapseWsL`; the flag records whether the previous character was
whitespace (the current whitespace run has already emitted its space). -/
def collapseWsAux : Bool → List Char → List Char
  | _, [] => []
  | inWs, c :: cs =>
    if c.isWhitespace then
      (if inWs then [] else [' ']) ++ collapseWsAux true cs
    else c :: collapseWsAux false cs

/-- Model of `replace(/\s+/g, " ")` on the salary text: every maximal whitespace run
becomes a single space. -/
def collapseWsL (l : List Char) : List Char :=
  collapseWsAux false l

/-- Model of line 284, `jobUrl.split("?")[0]`: the part of the link before the first
question mark. -/
def stripQuery (s : String) : String :=
  String.mk (s.data.takeWhile (fun c => c ≠ '?'))

/-- Record-level extraction for one card (lines 272-302): builds the job record, or
`null` (`none`) when the trimmed position or company is empty. -/
def itemToJob (r : RawItem) : Option Job :=
  let position := jsTrim r.titleText
  let company := jsTrim r.subtitleText
  let location := jsTrim r.locationText
  let date := r.timeDatetime.getD ""
  let salary := String.mk (collapseWsL (jsTrim r.salaryText).data)
  let jobUrl0 := r.fullLinkHref.getD ""
  let jobUrl1 := if jobUrl0 = "" then r.anchorHref.getD "" else jobUrl0
  let jobUrl := if jobUrl1 ≠ "" then stripQuery jobUrl1 else jobUrl1
  let companyLogo := r.logoDelayedUrl.getD ""
  let agoNew := jsTrim r.listdateNewText
  let agoTime := if agoNew ≠ "" then agoNew else jsTrim r.listdateText
  if position = "" || company = "" then none
  else
    some { position := position, company := company, location := location,
           date := date,
           salary := if salary = "" then "Not specified" else salary,
           jobUrl := jobUrl, companyLogo := companyLogo, agoTime := agoTime }

/-- Model of `parseJobList` (lines 264-314).  The input models what the selector
engine produces for the page: `.error ()` when the page-level parse
(`cheerio.load` or the `li` selection) throws, otherwise the list of per-item
extraction outcomes, where `.error ()` stands for a throw while extracting that one
item (caught, logged, and turned into `null`).  `null` items are filtered out at
line 309.  The function is total: callers never receive a raised error. -/
def parseJobList (jobData : Except Unit (List (Except Unit RawItem))) : List Job :=
  match jobData with
  | .error _ => []
  | .ok items =>
    items.filterMap (fun it =>
      match it with
      | .error _ => none
      | .ok raw => itemToJob raw)

/-! Pagination controller (lines 316-375) -/

/-- Result of one `fetchJobBatch` call: the extracted records, or a thrown transport
error (timeouts and the translated 429 both arrive here as throws). -/
abbrev BatchOutcome := Except Unit (List Job)

/-- One observable suspension of the fetch loop: the randomized 2000-3000 ms pacing
delay after a fully successful iteration (line 356; the random width is not
modelled), or the exponential backoff with its exact duration in milliseconds
(line 365). -/
inductive Ev where
  | pacing
  | backoff (ms : Nat)
deriving DecidableEq, Repr

/-- Line 345 guard: `this.limit && allJobs.length >= Number(this.limit)`; a `NaN`
limit compares false. -/
def limitReached (q : Query) (len : Nat) : Bool :=
  if q.limit = "" then false
  else
    match jsNumber q.limit with
    | some m => decide (m ≤ (len : Int))
    | none => false

/-- Model of the `while` loop of `getJobs` (lines 330-367).  `outcomes` lists the
successive results of `fetchJobBatch`; the result is the final `allJobs` list paired
with the delay events in order.  When the outcome list is exhausted the trace simply
ends with the list accumulated so far.  The re-sort of line 343 runs inside the same
`try` as the fetch, so when it throws (unparsable age label) the iteration is
handled by the `catch`: the already-appended accumulator is kept, the consecutive
error counter is incremented, never reset. -/
def getJobsLoop (q : Query) (totalPages : Nat) :
    List BatchOutcome → Nat → Nat → Nat → List Job → List Job × List Ev
  | [], _, _, _, allJobs => (allJobs, [])
  | Except.ok jobs :: rest, currentPage, start, consecutiveErrors, allJobs =>
    if currentPage < totalPages then
      if jobs.isEmpty then (allJobs, [])
      else
        let appended := allJobs ++ jobs
        match (if q.sortBy = "recent" then sortJobsByAgoTime appended
               else Except.ok appended) with
        | .ok acc =>
          if limitReached q acc.length then
            (jsSliceTo acc ((jsNumber q.limit).getD 0), [])
          else
            let r := getJobsLoop q totalPages rest (currentPage + 1) (start + 25) 0 acc
            (r.1, Ev.pacing :: r.2)
        | .error _ =>
          if consecutiveErrors + 1 ≥ 3 then (appended, [])
          else
            let r := getJobsLoop q totalPages rest currentPage start
              (consecutiveErrors + 1) appended
            (r.1, Ev.backoff (2 ^ (consecutiveErrors + 1) * 1000) :: r.2)
    else (allJobs, [])
  | Except.error _ :: rest, currentPage, start, consecutiveErrors, allJobs =>
    if currentPage < totalPages then
      if consecutiveErrors + 1 ≥ 3 then (allJobs, [])
      else
        let r := getJobsLoop q totalPages rest currentPage start
          (consecutiveErrors + 1) allJobs
        (r.1, Ev.backoff (2 ^ (consecutiveErrors + 1) * 1000) :: r.2)
    else (allJobs, [])

/-- Model of `getJobs` (lines 316-375): the loop starts at page 0, offset 0, error
counter 0, empty accumulator, and runs against the estimated page count. -/
def getJobs (q : Query) (totalPages : Nat) (outcomes : List BatchOutcome) :
    List Job × List Ev :=
  getJobsLoop q totalPages outcomes 0 0 0 []

/-! Heap model for the frame property of the sorter. -/

/-- JavaScript arrays are mutable objects; the heap holds their current contents and
a reference is an index into it. -/
abbrev Heap := List (List Job)

/-- Model of the spread copy `[...jobs]`: allocate a fresh array with the same
elements at the end of the heap and return its reference. -/
def spreadCopy (h : Heap) (r : Nat) : Heap × Nat :=
  (h ++ [h.getD r []], h.length)

/-- Model of `arr.sort(cmp)` on the heap: sort the referenced array in place; a
comparator throw propagates (`.error`). -/
def sortHeap (h : Heap) (r : Nat) : Except Unit Heap :=
  match sortJobsByAgoTime (h.getD r []) with
  | .ok l => .ok (h.set r l)
  | .error e => .error e

/-- Heap-level model of `sortJobsByAgoTime` line 122: `return [...jobs].sort(cmp)` —
copy first, then sort the copy in place, and return the reference of the copy. -/
def sortJobsByAgoTimeHeap (h : Heap) (r : Nat) : Except Unit (Heap × Nat) :=
  let c := spreadCopy h r
  match sortHeap c.1 c.2 with
  | .ok h2 => .ok (h2, c.2)
  | .error e => .error e

/-! Sample records for concrete evaluations. -/

/-- Sample record whose age label parses in hours. -/
def jobHour : Job :=
  { position := "engineer", company := "acme", location := "", date := "",
    salary := "", jobUrl := "", companyLogo := "", agoTime := "3 hours ago" }

/-- Sample record whose age label parses in minutes. -/
def jobMinute : Job :=
  { position := "analyst", company := "globex", location := "", date := "",
    salary := "", jobUrl := "", companyLogo := "", agoTime := "5 minutes ago" }

/-- Sample record whose age label is empty, the extractor default when both date
selectors miss. -/
def jobNoLabel : Job :=
  { position := "intern", company := "initech", location := "", date := "",
    salary := "", jobUrl := "", companyLogo := "", agoTime := "" }

/-- Sample raw card whose link carries a query string. -/
def rawWithQuery : RawItem :=
  { titleText := "engineer", subtitleText := "acme",
    fullLinkHref := some "https://ex.com/jobs/view/1?refId=abc&трк=x" }

/-- The record extracted from `rawWithQuery`. -/
def jobFromQuery : Job :=
  { position := "engineer", company := "acme", location := "", date := "",
    salary := "Not specified", jobUrl := "https://ex.com/jobs/view/1",
    companyLogo := "", agoTime := "" }

/-! Extractor helper lemmas -/

theorem itemToJob_fields {r : RawItem} {j : Job} (h : itemToJob r = some j) :
    j.position = jsTrim r.titleText ∧ j.company = jsTrim r.subtitleText ∧
    jsTrim r.titleText ≠ "" ∧ jsTrim r.subtitleText ≠ "" ∧
    j.jobUrl = (let u0 := r.fullLinkHref.getD ""
                let u1 := if u0 = "" then r.anchorHref.getD "" else u0
                if u1 ≠ "" then stripQuery u1 else u1) := by
  simp only [itemToJob] at h
  split at h
  · exact absurd h (by simp)
  · next hcond =>
    rw [Bool.or_eq_true, not_or] at hcond
    obtain ⟨hp, hc⟩ := hcond
    simp only [decide_eq_true_eq] at hp hc
    obtain rfl := (Option.some.injEq _ _).mp h
    exact ⟨rfl, rfl, hp, hc, rfl⟩

theorem mem_parseJobList {input : Except Unit (List (Except Unit RawItem))} {j : Job}
    (hj : j ∈ parseJobList input) : ∃ r : RawItem, itemToJob r = some j := by
  match input with
  | .error e => simp [parseJobList] at hj
  | .ok items =>
    simp only [parseJobList, List.mem_filterMap] at hj
    obtain ⟨a, _, ha⟩ := hj
    match a with
    | .error e => simp at ha
    | .ok raw => exact ⟨raw, ha⟩

/-! Claim theorems -/

/-- C2 (code bug): the minute derivation of the result sorter is not total.  The
recognized forms map exactly as the claim states ("just now" to 0, hours times 60,
minutes as-is, other units to infinitely old), but a label that contains no space at
all — the empty label included, which is exactly what the extractor emits when both
date selectors miss — leaves `unit` undefined and `unit.includes("hour")` throws a
`TypeError`, so the comparator and the surrounding sort raise instead of treating
the label as infinitely old. -/
theorem convertToMinutes_not_total :
    convertToMinutes "" = Except.error () ∧
    convertToMinutes "yesterday" = Except.error () ∧
    convertToMinutes "Just now" = Except.ok (MinVal.int 0) ∧
    convertToMinutes "3 hours ago" = Except.ok (MinVal.int 180) ∧
    convertToMinutes "45 minutes ago" = Except.ok (MinVal.int 45) ∧
    convertToMinutes "2 weeks ago" = Except.ok MinVal.inf ∧
    sortJobsByAgoTime [jobHour, jobNoLabel] = Except.error () := by
  decide

/-- C5 (code bug): on traces without a recency re-sort the controller behaves as
claimed — the first conjunct shows two failures with backoffs of 2^1 and 2^2
seconds, a success that resets the counter (pacing delay), then three consecutive
failures stopping the loop with the partial list.  But when recency sort is
requested and an accumulated age label does not parse, the re-sort of the appended
list throws inside the same `try` as the fetch: the successful batch is counted as a
failed iteration instead of resetting the counter, the counter reaches 3, and the
controller stops, dropping the later successful batch (third conjunct). -/
theorem getJobs_error_counter_not_reset :
    getJobs {} 40
        [Except.error (), Except.error (), Except.ok [jobHour],
         Except.error (), Except.error (), Except.error ()] =
      ([jobHour],
       [Ev.backoff 2000, Ev.backoff 4000, Ev.pacing, Ev.backoff 2000, Ev.backoff 4000]) ∧
    getJobs { sortBy := "recent" } 40
        [Except.ok [jobNoLabel, jobHour], Except.error (), Except.error (),
         Except.ok [jobMinute]] =
      ([jobNoLabel, jobHour], [Ev.backoff 2000, Ev.backoff 4000]) ∧
    jobMinute ∉ (getJobs { sortBy := "recent" } 40
        [Except.ok [jobNoLabel, jobHour], Except.error (), Except.error (),
         Except.ok [jobMinute]]).1 := by
  decide

/-- C6: every record the extractor emits has a non-empty position and a non-empty
company; an item whose trimmed position or company is empty maps to `null`, and a
dropped item leaves the remaining items of the page intact instead of raising. -/
theorem parseJobList_position_company_nonempty :
    (∀ input j, j ∈ parseJobList input → j.position ≠ "" ∧ j.company ≠ "") ∧
    (∀ r : RawItem, jsTrim r.titleText = "" ∨ jsTrim r.subtitleText = "" →
      itemToJob r = none) ∧
    (∀ (pre post : List (Except Unit RawItem)) (r : RawItem), itemToJob r = none →
      parseJobList (Except.ok (pre ++ Except.ok r :: post)) =
        parseJobList (Except.ok (pre ++ post))) := by
  refine ⟨?_, ?_, ?_⟩
  · intro input j hj
    obtain ⟨r, hr⟩ := mem_parseJobList hj
    obtain ⟨hp, hc, hp0, hc0, -⟩ := itemToJob_fields hr
    exact ⟨hp ▸ hp0, hc ▸ hc0⟩
  · intro r hr
    rcases hr with h | h <;> simp [itemToJob, h]
  · intro pre post r hr
    simp [parseJobList, List.filterMap_append, List.filterMap_cons, hr]

/-- Witness for C6 at concrete inputs: a well-formed card yields its non-empty
fields, a blank-title card is dropped, and the drop leaves the rest of the page. -/
theorem parseJobList_position_company_nonempty_witness :
    (jobFromQuery.position ≠ "" ∧ jobFromQuery.company ≠ "") ∧
    itemToJob { titleText := "   " } = none ∧
    parseJobList (Except.ok [Except.ok { titleText := "   " }, Except.ok rawWithQuery]) =
      parseJobList (Except.ok [Except.ok rawWithQuery]) :=
  ⟨parseJobList_position_company_nonempty.1 (Except.ok [Except.ok rawWithQuery])
      jobFromQuery (by decide),
   parseJobList_position_company_nonempty.2.1 { titleText := "   " } (Or.inl (by decide)),
   parseJobList_position_company_nonempty.2.2 [] [Except.ok rawWithQuery]
      { titleText := "   " } (by decide)⟩

/-- C7: a page-level parse throw yields the empty list instead of propagating, and a
throw while extracting one item skips exactly that item and continues with the
rest; the extractor is a total function, so its callers never receive a raised
error. -/
theorem parseJobList_never_raises :
    (∀ e, parseJobList (Except.error e) = []) ∧
    (∀ pre post, parseJobList (Except.ok (pre ++ Except.error () :: post)) =
      parseJobList (Except.ok (pre ++ post))) := by
  refine ⟨fun _ => rfl, fun pre post => ?_⟩
  simp [parseJobList, List.filterMap_append, List.filterMap_cons]

/-- C9: no extracted record carries a query string in its job URL. -/
theorem parseJobList_jobUrl_no_query :
    ∀ input j, j ∈ parseJobList input → '?' ∉ j.jobUrl.data := by
  intro input j hj
  obtain ⟨r, hr⟩ := mem_parseJobList hj
  obtain ⟨-, -, -, -, hurl⟩ := itemToJob_fields hr
  simp only at hurl
  by_cases h0 : (if (r.fullLinkHref.getD "") = "" then r.anchorHref.getD ""
                 else r.fullLinkHref.getD "") = ""
  · rw [hurl, if_neg (by simp [h0])]
    simp [h0]
  · rw [hurl, if_pos h0]
    intro hmem
    have := List.mem_takeWhile_imp hmem
    simp at this

/-- Witness for C9 at a concrete input: the card link
`https://ex.com/jobs/view/1?refId=abc&трк=x` yields a record whose URL has no
question mark. -/
theorem parseJobList_jobUrl_no_query_witness :
    '?' ∉ jobFromQuery.jobUrl.data :=
  parseJobList_jobUrl_no_query (Except.ok [Except.ok rawWithQuery]) jobFromQuery
    (by decide)

theorem ceil_div_25 (c : Nat) : ⌈(c : ℚ) / 25⌉₊ = (c + 24) / 25 := by
  rcases Nat.eq_zero_or_pos c with h | h
  · subst h; norm_num
  · rw [Nat.ceil_eq_iff (by omega : (c + 24) / 25 ≠ 0)]
    refine ⟨?_, ?_⟩
    · rw [lt_div_iff₀ (by norm_num : (0 : ℚ) < 25)]
      exact_mod_cast (by omega : ((c + 24) / 25 - 1) * 25 < c)
    · rw [div_le_iff₀ (by norm_num : (0 : ℚ) < 25)]
      exact_mod_cast (by omega : c ≤ (c + 24) / 25 * 25)

/-- C4: for every scraped job-count indicator text the estimator returns the ceiling
of count over 25 clamped to the closed range [1, 40], where count is the integer
formed by the digit characters of the text (0 when there are none); and any network
or parse failure is answered with the hard-coded fallback 40.  `getTotalPages` is a
total function of its input, so the estimator never raises to its caller. -/
theorem getTotalPages_clamped_ceil :
    (∀ text, getTotalPages (Except.ok text) =
      min (max 1 ⌈(jobsCountOf text : ℚ) / 25⌉₊) 40) ∧
    getTotalPages (Except.error ()) = 40 := by
  refine ⟨fun text => ?_, rfl⟩
  rw [ceil_div_25]
  rfl

/-- C10: `sortJobsByAgoTime` sorts a fresh array: on the heap, the spread copy gets
a reference distinct from the argument, the returned reference is the copy, and
after the call the array passed in still holds the same records in their original
order. -/
theorem sortJobsByAgoTimeHeap_frame :
    ∀ (h : Heap) (r : Nat) (l : List Job), r < h.length →
      sortJobsByAgoTime (h.getD r []) = Except.ok l →
      ∃ h2 r2, sortJobsByAgoTimeHeap h r = Except.ok (h2, r2) ∧
        r2 ≠ r ∧ h2.getD r [] = h.getD r [] ∧ h2.getD r2 [] = l := by
  intro h r l hr hs
  refine ⟨h ++ [l], h.length, ?_, by omega, ?_, ?_⟩
  · simp only [sortJobsByAgoTimeHeap, spreadCopy, sortHeap]
    rw [List.getD_append_right _ _ _ _ (le_refl h.length)]
    simp only [Nat.sub_self, List.getD_cons_zero, hs]
    rw [List.set_append_right _ _ (le_refl h.length)]
    simp
  · exact List.getD_append _ _ _ _ hr
  · rw [List.getD_append_right _ _ _ _ (le_refl h.length)]
    simp

/-- Witness for C10 at a concrete heap: sorting the two-record array at reference 0
allocates reference 1, returns the sorted copy there, and leaves the original
array unchanged. -/
theorem sortJobsByAgoTimeHeap_frame_witness :
    ∃ h2 r2, sortJobsByAgoTimeHeap [[jobHour, jobMinute]] 0 = Except.ok (h2, r2) ∧
      r2 ≠ 0 ∧ h2.getD 0 [] = [[jobHour, jobMinute]].getD 0 [] ∧
      h2.getD r2 [] = [jobMinute, jobHour] :=
  sortJobsByAgoTimeHeap_frame [[jobHour, jobMinute]] 0 [jobMinute, jobHour]
    (by decide) (by decide)

/-! Counting query parameters -/

theorem countP_singleton_ite (p : String × String → Bool) (c : Prop) [Decidable c]
    (kv : String × String) :
    List.countP p (if c then [kv] else []) =
      if c then (if p kv then 1 else 0) else 0 := by
  split <;> simp [List.countP_cons]

theorem countP_getUrlParams (q : Query) (start : Nat) (p : String × String → Bool) :
    (getUrlParams q start).countP p =
      (if q.keyword ≠ "" then (if p ("keywords", q.keyword) then 1 else 0) else 0) +
      (if q.location ≠ "" then (if p ("location", q.location) then 1 else 0) else 0) +
      (if (getDateSincePosted q).length > 0 then
        (if p ("f_TPR", getDateSincePosted q) then 1 else 0) else 0) +
      (if (getSalary q).length > 0 then
        (if p ("f_SB2", getSalary q) then 1 else 0) else 0) +
      (if (getExperienceLevel q).length > 0 then
        (if p ("f_E", getExperienceLevel q) then 1 else 0) else 0) +
      (if (getRemoteFilter q).length > 0 then
        (if p ("f_WT", getRemoteFilter q) then 1 else 0) else 0) +
      (if (getJobType q).length > 0 then
        (if p ("f_JT", getJobType q) then 1 else 0) else 0) +
      (if p ("start", startParamValue q start) then 1 else 0) +
      (if q.sortBy = "relevant" then (if p ("sortBy", "R") then 1 else 0) else 0) := by
  simp only [getUrlParams, List.countP_append, countP_singleton_ite,
    List.countP_cons, List.countP_nil]
  omega

/-- C8: the paginated-API URL always carries exactly one pagination parameter
`start`, and whenever the configured page string is numeric with value `page`, its
value is `start + page * 25`. -/
theorem getUrl_start_param :
    ∀ (q : Query) (start : Nat),
      (getUrlParams q start).countP (fun kv => kv.1 = "start") = 1 ∧
      (∀ page : Int, jsNumber q.page = some page →
        ("start", toString ((start : Int) + page * 25)) ∈ getUrlParams q start) := by
  intro q start
  constructor
  · rw [countP_getUrlParams]
    simp
  · intro page hp
    have hv : startParamValue q start = toString ((start : Int) + page * 25) := by
      simp [startParamValue, getPage, hp]
    simp [getUrlParams, hv]

/-- Witness for C8: with page "2" and batch offset 25 the encoder emits exactly one
start parameter, valued 25 + 2 * 25 = 75. -/
theorem getUrl_start_param_witness :
    (getUrlParams { page := "2" } 25).countP (fun kv => kv.1 = "start") = 1 ∧
    ("start", toString ((25 : Int) + 2 * 25)) ∈ getUrlParams { page := "2" } 25 :=
  ⟨(getUrl_start_param { page := "2" } 25).1,
   (getUrl_start_param { page := "2" } 25).2 2 (by decide)⟩

/-! Spec-side filter vocabularies (the fixed lookup tables of the specification,
stated as data so the encoder can be compared against them). -/

/-- Date-posted window vocabulary: recognized value and its site code. -/
def specDateCodes : List (String × String) :=
  [("past month", "r2592000"), ("past week", "r604800"),
   ("24hr", "r86400"), ("1hr", "r3600")]

/-- Salary floor vocabulary. -/
def specSalaryCodes : List (String × String) :=
  [("40000", "1"), ("60000", "2"), ("80000", "3"), ("100000", "4"), ("120000", "5")]

/-- Experience level vocabulary. -/
def specExperienceCodes : List (String × String) :=
  [("internship", "1"), ("entry level", "2"), ("associate", "3"),
   ("senior", "4"), ("director", "5"), ("executive", "6")]

/-- Remote filter vocabulary. -/
def specRemoteCodes : List (String × String) :=
  [("on-site", "1"), ("remote", "2"), ("hybrid", "3")]

/-- Job type vocabulary. -/
def specJobTypeCodes : List (String × String) :=
  [("full time", "F"), ("part time", "P"), ("contract", "C"),
   ("temporary", "T"), ("volunteer", "V"), ("internship", "I")]

theorem dateSincePostedCode_of_mem {s c : String} (h : (s, c) ∈ specDateCodes) :
    dateSincePostedCode s = c ∧ c.length > 0 := by
  simp [specDateCodes, Prod.ext_iff] at h
  rcases h with ⟨h1, h2⟩ | ⟨h1, h2⟩ | ⟨h1, h2⟩ | ⟨h1, h2⟩ <;> subst h1 <;> subst h2 <;>
    exact ⟨by decide, by decide⟩

theorem dateSincePostedCode_unrecognized {s : String}
    (h : ∀ c, (s, c) ∉ specDateCodes) : dateSincePostedCode s = "" := by
  unfold dateSincePostedCode
  split_ifs with h1 h2 h3 h4 h5
  · rfl
  · exact absurd (by simp [specDateCodes, h2]) (h "r2592000")
  · exact absurd (by simp [specDateCodes, h3]) (h "r604800")
  · exact absurd (by simp [specDateCodes, h4]) (h "r86400")
  · exact absurd (by simp [specDateCodes, h5]) (h "r3600")
  · rfl

theorem salaryCode_of_mem {s c : String} (h : (s, c) ∈ specSalaryCodes) :
    salaryCode s = c ∧ c.length > 0 := by
  simp [specSalaryCodes, Prod.ext_iff] at h
  rcases h with ⟨h1, h2⟩ | ⟨h1, h2⟩ | ⟨h1, h2⟩ | ⟨h1, h2⟩ | ⟨h1, h2⟩ <;>
    subst h1 <;> subst h2 <;> exact ⟨by decide, by decide⟩

theorem salaryCode_unrecognized {s : String}
    (h : ∀ c, (s, c) ∉ specSalaryCodes) : salaryCode s = "" := by
  unfold salaryCode
  split_ifs with h1 h2 h3 h4 h5 h6
  · rfl
  · exact absurd (by simp [specSalaryCodes, h2]) (h "1")
  · exact absurd (by simp [specSalaryCodes, h3]) (h "2")
  · exact absurd (by simp [specSalaryCodes, h4]) (h "3")
  · exact absurd (by simp [specSalaryCodes, h5]) (h "4")
  · exact absurd (by simp [specSalaryCodes, h6]) (h "5")
  · rfl

theorem experienceLevelCode_of_mem {s c : String} (h : (s, c) ∈ specExperienceCodes) :
    experienceLevelCode s = c ∧ c.length > 0 := by
  simp [specExperienceCodes, Prod.ext_iff] at h
  rcases h with ⟨h1, h2⟩ | ⟨h1, h2⟩ | ⟨h1, h2⟩ | ⟨h1, h2⟩ | ⟨h1, h2⟩ | ⟨h1, h2⟩ <;>
    subst h1 <;> subst h2 <;> exact ⟨by decide, by decide⟩

theorem experienceLevelCode_unrecognized {s : String}
    (h : ∀ c, (s, c) ∉ specExperienceCodes) : experienceLevelCode s = "" := by
  unfold experienceLevelCode
  split_ifs with h1 h2 h3 h4 h5 h6 h7
  · rfl
  · exact absurd (by simp [specExperienceCodes, h2]) (h "1")
  · exact absurd (by simp [specExperienceCodes, h3]) (h "2")
  · exact absurd (by simp [specExperienceCodes, h4]) (h "3")
  · exact absurd (by simp [specExperienceCodes, h5]) (h "4")
  · exact absurd (by simp [specExperienceCodes, h6]) (h "5")
  · exact absurd (by simp [specExperienceCodes, h7]) (h "6")
  · rfl

theorem remoteFilterCode_of_mem {s c : String} (h : (s, c) ∈ specRemoteCodes) :
    remoteFilterCode s = c ∧ c.length > 0 := by
  simp [specRemoteCodes, Prod.ext_iff] at h
  rcases h with ⟨h1, h2⟩ | ⟨h1, h2⟩ | ⟨h1, h2⟩ <;>
    subst h1 <;> subst h2 <;> exact ⟨by decide, by decide⟩

theorem remoteFilterCode_unrecognized {s : String}
    (h : ∀ c, (s, c) ∉ specRemoteCodes) : remoteFilterCode s = "" := by
  unfold remoteFilterCode
  split_ifs with h1 h2 h3 h4
  · rfl
  · exact absurd (by simp [specRemoteCodes, h2]) (h "1")
  · exact absurd (by simp [specRemoteCodes, h3]) (h "2")
  · exact absurd (by simp [specRemoteCodes, h4]) (h "3")
  · rfl

theorem jobTypeCode_of_mem {s c : String} (h : (s, c) ∈ specJobTypeCodes) :
    jobTypeCode s = c ∧ c.length > 0 := by
  simp [specJobTypeCodes, Prod.ext_iff] at h
  rcases h with ⟨h1, h2⟩ | ⟨h1, h2⟩ | ⟨h1, h2⟩ | ⟨h1, h2⟩ | ⟨h1, h2⟩ | ⟨h1, h2⟩ <;>
    subst h1 <;> subst h2 <;> exact ⟨by decide, by decide⟩

theorem jobTypeCode_unrecognized {s : String}
    (h : ∀ c, (s, c) ∉ specJobTypeCodes) : jobTypeCode s = "" := by
  unfold jobTypeCode
  split_ifs with h1 h2 h3 h4 h5 h6 h7
  · rfl
  · exact absurd (by simp [specJobTypeCodes, h2]) (h "F")
  · exact absurd (by simp [specJobTypeCodes, h3]) (h "P")
  · exact absurd (by simp [specJobTypeCodes, h4]) (h "C")
  · exact absurd (by simp [specJobTypeCodes, h5]) (h "T")
  · exact absurd (by simp [specJobTypeCodes, h6]) (h "V")
  · exact absurd (by simp [specJobTypeCodes, h7]) (h "I")
  · rfl

/-- C3 counterexample: the sort preference is one of the six enumerated filters and
"recent" is one of its recognized values, yet the paginated-API encoder emits no
sortBy parameter for it (only "relevant" gets one; "recent" is realized by the
client-side re-sort instead). -/
theorem getUrl_recent_emits_no_param :
    ({ sortBy := "recent" } : Query).sortBy = "recent" ∧
    (getUrlParams { sortBy := "recent" } 0).countP (fun kv => kv.1 = "sortBy") = 0 := by
  decide

/-- C3 (amended): for each of the five lookup-table filters (date-posted window,
salary floor, experience level, remote filter, job type), the encoded URL carries
exactly one correctly-coded parameter when the filter is set to a recognized value,
and no parameter at all when the filter is unset or set to an unrecognized value;
the sort preference gets its parameter `sortBy=R` exactly when it is set to
"relevant" — the recognized value "recent" emits no parameter. -/
theorem getUrl_filter_params :
    ∀ (q : Query) (start : Nat),
      (∀ c, (q.dateSincePosted, c) ∈ specDateCodes →
        ("f_TPR", c) ∈ getUrlParams q start ∧
        (getUrlParams q start).countP (fun kv => kv.1 = "f_TPR") = 1) ∧
      ((∀ c, (q.dateSincePosted, c) ∉ specDateCodes) →
        (getUrlParams q start).countP (fun kv => kv.1 = "f_TPR") = 0) ∧
      (∀ c, (q.salary, c) ∈ specSalaryCodes →
        ("f_SB2", c) ∈ getUrlParams q start ∧
        (getUrlParams q start).countP (fun kv => kv.1 = "f_SB2") = 1) ∧
      ((∀ c, (q.salary, c) ∉ specSalaryCodes) →
        (getUrlParams q start).countP (fun kv => kv.1 = "f_SB2") = 0) ∧
      (∀ c, (q.experienceLevel, c) ∈ specExperienceCodes →
        ("f_E", c) ∈ getUrlParams q start ∧
        (getUrlParams q start).countP (fun kv => kv.1 = "f_E") = 1) ∧
      ((∀ c, (q.experienceLevel, c) ∉ specExperienceCodes) →
        (getUrlParams q start).countP (fun kv => kv.1 = "f_E") = 0) ∧
      (∀ c, (q.remoteFilter, c) ∈ specRemoteCodes →
        ("f_WT", c) ∈ getUrlParams q start ∧
        (getUrlParams q start).countP (fun kv => kv.1 = "f_WT") = 1) ∧
      ((∀ c, (q.remoteFilter, c) ∉ specRemoteCodes) →
        (getUrlParams q start).countP (fun kv => kv.1 = "f_WT") = 0) ∧
      (∀ c, (q.jobType, c) ∈ specJobTypeCodes →
        ("f_JT", c) ∈ getUrlParams q start ∧
        (getUrlParams q start).countP (fun kv => kv.1 = "f_JT") = 1) ∧
      ((∀ c, (q.jobType, c) ∉ specJobTypeCodes) →
        (getUrlParams q start).countP (fun kv => kv.1 = "f_JT") = 0) ∧
      (q.sortBy = "relevant" →
        ("sortBy", "R") ∈ getUrlParams q start ∧
        (getUrlParams q start).countP (fun kv => kv.1 = "sortBy") = 1) ∧
      (q.sortBy ≠ "relevant" →
        (getUrlParams q start).countP (fun kv => kv.1 = "sortBy") = 0) := by
  intro q start
  refine ⟨?_, ?_, ?_, ?_, ?_, ?_, ?_, ?_, ?_, ?_, ?_, ?_⟩
  · intro c hc
    obtain ⟨hcode, hlen⟩ := dateSincePostedCode_of_mem hc
    constructor
    · simp [getUrlParams, getDateSincePosted, hcode, hlen]
    · rw [countP_getUrlParams]
      simp [getDateSincePosted, hcode, hlen]
  · intro h
    have hcode := dateSincePostedCode_unrecognized h
    rw [countP_getUrlParams]
    simp [getDateSincePosted, hcode]
  · intro c hc
    obtain ⟨hcode, hlen⟩ := salaryCode_of_mem hc
    constructor
    · simp [getUrlParams, getSalary, hcode, hlen]
    · rw [countP_getUrlParams]
      simp [getSalary, hcode, hlen]
  · intro h
    have hcode := salaryCode_unrecognized h
    rw [countP_getUrlParams]
    simp [getSalary, hcode]
  · intro c hc
    obtain ⟨hcode, hlen⟩ := experienceLevelCode_of_mem hc
    constructor
    · simp [getUrlParams, getExperienceLevel, hcode, hlen]
    · rw [countP_getUrlParams]
      simp [getExperienceLevel, hcode, hlen]
  · intro h
    have hcode := experienceLevelCode_unrecognized h
    rw [countP_getUrlParams]
    simp [getExperienceLevel, hcode]
  · intro c hc
    obtain ⟨hcode, hlen⟩ := remoteFilterCode_of_mem hc
    constructor
    · simp [getUrlParams, getRemoteFilter, hcode, hlen]
    · rw [countP_getUrlParams]
      simp [getRemoteFilter, hcode, hlen]
  · intro h
    have hcode := remoteFilterCode_unrecognized h
    rw [countP_getUrlParams]
    simp [getRemoteFilter, hcode]
  · intro c hc
    obtain ⟨hcode, hlen⟩ := jobTypeCode_of_mem hc
    constructor
    · simp [getUrlParams, getJobType, hcode, hlen]
    · rw [countP_getUrlParams]
      simp [getJobType, hcode, hlen]
  · intro h
    have hcode := jobTypeCode_unrecognized h
    rw [countP_getUrlParams]
    simp [getJobType, hcode]
  · intro hrel
    constructor
    · simp [getUrlParams, hrel]
    · rw [countP_getUrlParams]
      simp [hrel]
  · intro hnot
    rw [countP_getUrlParams]
    simp [hnot]

/-- Query with every filter set to a recognized value, for the C3 witness. -/
def qAllSet : Query :=
  { dateSincePosted := "past week", salary := "100000",
    experienceLevel := "senior", remoteFilter := "remote",
    jobType := "contract", sortBy := "relevant" }

/-- Witness for C3 at concrete queries: with every filter set to a recognized value
each coded parameter appears exactly once, and with every filter unset no filter
parameter appears. -/
theorem getUrl_filter_params_witness :
    (("f_TPR", "r604800") ∈ getUrlParams qAllSet 0 ∧
      (getUrlParams qAllSet 0).countP (fun kv => kv.1 = "f_TPR") = 1) ∧
    (("f_SB2", "4") ∈ getUrlParams qAllSet 0 ∧
      (getUrlParams qAllSet 0).countP (fun kv => kv.1 = "f_SB2") = 1) ∧
    (("sortBy", "R") ∈ getUrlParams qAllSet 0 ∧
      (getUrlParams qAllSet 0).countP (fun kv => kv.1 = "sortBy") = 1) ∧
    (getUrlParams {} 0).countP (fun kv => kv.1 = "f_TPR") = 0 ∧
    (getUrlParams {} 0).countP (fun kv => kv.1 = "f_JT") = 0 ∧
    (getUrlParams {} 0).countP (fun kv => kv.1 = "sortBy") = 0 :=
  ⟨(getUrl_filter_params qAllSet 0).1 "r604800" (by decide),
   (getUrl_filter_params qAllSet 0).2.2.1 "4" (by decide),
   (getUrl_filter_params qAllSet 0).2.2.2.2.2.2.2.2.2.2.1 (by decide),
   (getUrl_filter_params {} 0).2.1
     (fun c hc => (by decide : ∀ p ∈ specDateCodes, p.1 ≠ "") _ hc rfl),
   (getUrl_filter_params {} 0).2.2.2.2.2.2.2.2.2.1
     (fun c hc => (by decide : ∀ p ∈ specJobTypeCodes, p.1 ≠ "") _ hc rfl),
   (getUrl_filter_params {} 0).2.2.2.2.2.2.2.2.2.2.2 (by decide)⟩

/-! Limit enforcement in the fetch loop -/

theorem limitReached_of_empty {q : Query} (hlim : q.limit = "") :
    ∀ n, limitReached q n = false := by
  intro n
  simp [limitReached, hlim]

theorem limit_ne_empty {q : Query} {m : Int} (hm : jsNumber q.limit = some m)
    (hpos : 0 < m) : q.limit ≠ "" := by
  intro h
  rw [h] at hm
  have : (0 : Int) = m := Option.some.inj ((by decide : jsNumber "" = some 0) ▸ hm)
  omega

theorem limitReached_eq {q : Query} {m : Int} (hm : jsNumber q.limit = some m)
    (hne : q.limit ≠ "") (n : Nat) :
    limitReached q n = decide (m ≤ (n : Int)) := by
  simp [limitReached, hne, hm]

theorem getJobsLoop_ok_step (q : Query) (tp : Nat) {cp : Nat} (hlt : cp < tp)
    {b : List Job} (hb : b ≠ []) (hsort : q.sortBy ≠ "recent")
    (rest : List BatchOutcome) (st ce : Nat) (acc : List Job) :
    getJobsLoop q tp (Except.ok b :: rest) cp st ce acc =
      if limitReached q (acc ++ b).length then
        (jsSliceTo (acc ++ b) ((jsNumber q.limit).getD 0), [])
      else
        ((getJobsLoop q tp rest (cp + 1) (st + 25) 0 (acc ++ b)).1,
         Ev.pacing :: (getJobsLoop q tp rest (cp + 1) (st + 25) 0 (acc ++ b)).2) := by
  simp only [getJobsLoop]
  rw [if_pos hlt, if_neg (show ¬(b.isEmpty = true) by simp [hb]), if_neg hsort]

theorem getJobsLoop_ok_step_recent (q : Query) (tp : Nat) {cp : Nat} (hlt : cp < tp)
    {b : List Job} (hb : b ≠ []) (hsort : q.sortBy = "recent")
    {acc s : List Job} (hs : sortJobsByAgoTime (acc ++ b) = Except.ok s)
    (rest : List BatchOutcome) (st ce : Nat) :
    getJobsLoop q tp (Except.ok b :: rest) cp st ce acc =
      if limitReached q s.length then
        (jsSliceTo s ((jsNumber q.limit).getD 0), [])
      else
        ((getJobsLoop q tp rest (cp + 1) (st + 25) 0 s).1,
         Ev.pacing :: (getJobsLoop q tp rest (cp + 1) (st + 25) 0 s).2) := by
  simp only [getJobsLoop]
  rw [if_pos hlt, if_neg (show ¬(b.isEmpty = true) by simp [hb]), if_pos hsort, hs]

theorem sortJobsByAgoTime_ok_of_labels {l : List Job}
    (h : ∀ j ∈ l, (convertToMinutes j.agoTime).isOk = true) :
    ∃ s, sortJobsByAgoTime l = Except.ok s ∧ s.Perm l := by
  unfold sortJobsByAgoTime
  by_cases h1 : l.length ≤ 1
  · rw [if_pos h1]
    exact ⟨l, rfl, List.Perm.refl l⟩
  · rw [if_neg h1, if_pos (by rw [List.all_eq_true]; exact h)]
    exact ⟨_, rfl, List.perm_insertionSort _ l⟩

theorem sortJobsByAgoTime_length {l s : List Job}
    (hs : sortJobsByAgoTime l = Except.ok s) : s.length = l.length := by
  unfold sortJobsByAgoTime at hs
  split at hs
  · exact (Except.ok.inj hs) ▸ rfl
  · split at hs
    · rw [← Except.ok.inj hs, List.length_insertionSort]
    · exact absurd hs (by simp)

theorem getJobsLoop_no_limit {q : Query} {tp : Nat} (hsort : q.sortBy ≠ "recent")
    (hlim : q.limit = "") :
    ∀ (bs : List (List Job)) (cp st : Nat) (acc : List Job),
      (∀ b ∈ bs, b ≠ []) → cp + bs.length ≤ tp →
      (getJobsLoop q tp (bs.map Except.ok) cp st 0 acc).1 = acc ++ bs.flatten := by
  intro bs
  induction bs with
  | nil =>
    intro cp st acc _ _
    simp [getJobsLoop]
  | cons b bs ih =>
    intro cp st acc hne hcp
    have hlt : cp < tp := by simp only [List.length_cons] at hcp; omega
    have hb : b ≠ [] := hne b (List.mem_cons_self b bs)
    rw [List.map_cons, getJobsLoop_ok_step q tp hlt hb hsort,
        if_neg (show ¬(limitReached q (acc ++ b).length = true) by
          rw [limitReached_of_empty hlim]; simp)]
    dsimp only
    rw [ih (cp + 1) (st + 25) (acc ++ b)
      (fun x hx => hne x (List.mem_cons_of_mem b hx))
      (by simp only [List.length_cons] at hcp; omega)]
    simp [List.flatten_cons]

theorem getJobsLoop_limit {q : Query} {tp : Nat} {m : Int}
    (hsort : q.sortBy ≠ "recent") (hm : jsNumber q.limit = some m) (hpos : 0 < m) :
    ∀ (bs : List (List Job)) (cp st : Nat) (acc : List Job),
      (∀ b ∈ bs, b ≠ []) → cp + bs.length ≤ tp →
      (acc.length : Int) < m → m ≤ ((acc ++ bs.flatten).length : Int) →
      (getJobsLoop q tp (bs.map Except.ok) cp st 0 acc).1
        = (acc ++ bs.flatten).take m.toNat := by
  have hne := limit_ne_empty hm hpos
  intro bs
  induction bs with
  | nil =>
    intro cp st acc _ _ hlt hge
    exfalso
    simp only [List.flatten_nil, List.append_nil] at hge
    omega
  | cons b bs ih =>
    intro cp st acc hneb hcp hacc hge
    have hlt : cp < tp := by simp only [List.length_cons] at hcp; omega
    have hb : b ≠ [] := hneb b (List.mem_cons_self b bs)
    by_cases hhit : m ≤ ((acc ++ b).length : Int)
    · rw [List.map_cons, getJobsLoop_ok_step q tp hlt hb hsort,
          if_pos (show limitReached q (acc ++ b).length = true by
            rw [limitReached_eq hm hne]; exact decide_eq_true hhit)]
      dsimp only
      rw [hm]
      simp only [Option.getD_some]
      rw [jsSliceTo, if_pos (by omega : (0 : Int) ≤ m)]
      rw [List.flatten_cons, ← List.append_assoc,
          List.take_append_of_le_length (Int.toNat_le.mpr hhit)]
    · rw [List.map_cons, getJobsLoop_ok_step q tp hlt hb hsort,
          if_neg (show ¬(limitReached q (acc ++ b).length = true) by
            rw [limitReached_eq hm hne]
            simp only [decide_eq_true_eq]
            exact hhit)]
      dsimp only
      rw [ih (cp + 1) (st + 25) (acc ++ b)
        (fun x hx => hneb x (List.mem_cons_of_mem b hx))
        (by simp only [List.length_cons] at hcp; omega)
        (by simp only [List.length_append] at hhit ⊢; push_cast at hhit ⊢; omega)
        (by simp only [List.flatten_cons, List.length_append, ← List.append_assoc] at hge ⊢
            push_cast at hge ⊢
            omega)]
      rw [List.flatten_cons, ← List.append_assoc]

theorem getJobsLoop_limit_recent {q : Query} {tp : Nat} {m : Int}
    (hsort : q.sortBy = "recent") (hm : jsNumber q.limit = some m) (hpos : 0 < m) :
    ∀ (bs : List (List Job)) (cp st : Nat) (acc : List Job),
      (∀ b ∈ bs, b ≠ []) →
      (∀ j ∈ acc ++ bs.flatten, (convertToMinutes j.agoTime).isOk = true) →
      cp + bs.length ≤ tp →
      (acc.length : Int) < m → m ≤ ((acc ++ bs.flatten).length : Int) →
      ((getJobsLoop q tp (bs.map Except.ok) cp st 0 acc).1).length = m.toNat := by
  have hne := limit_ne_empty hm hpos
  intro bs
  induction bs with
  | nil =>
    intro cp st acc _ _ _ hlt hge
    exfalso
    simp only [List.flatten_nil, List.append_nil] at hge
    omega
  | cons b bs ih =>
    intro cp st acc hneb hlab hcp hacc hge
    have hlt : cp < tp := by simp only [List.length_cons] at hcp; omega
    have hb : b ≠ [] := hneb b (List.mem_cons_self b bs)
    obtain ⟨s, hs, hperm⟩ := sortJobsByAgoTime_ok_of_labels (l := acc ++ b)
      (fun j hj => hlab j (by
        simp only [List.flatten_cons, List.mem_append] at hj ⊢
        tauto))
    have hslen : s.length = (acc ++ b).length := hperm.length_eq
    by_cases hhit : m ≤ ((acc ++ b).length : Int)
    · rw [List.map_cons, getJobsLoop_ok_step_recent q tp hlt hb hsort hs,
          if_pos (show limitReached q s.length = true by
            rw [limitReached_eq hm hne, hslen]; exact decide_eq_true hhit)]
      dsimp only
      rw [hm]
      simp only [Option.getD_some]
      rw [jsSliceTo, if_pos (by omega : (0 : Int) ≤ m)]
      rw [List.length_take, hslen]
      have := Int.toNat_le.mpr hhit
      omega
    · rw [List.map_cons, getJobsLoop_ok_step_recent q tp hlt hb hsort hs,
          if_neg (show ¬(limitReached q s.length = true) by
            rw [limitReached_eq hm hne, hslen]
            simp only [decide_eq_true_eq]
            exact hhit)]
      dsimp only
      refine ih (cp + 1) (st + 25) s
        (fun x hx => hneb x (List.mem_cons_of_mem b hx))
        (fun j hj => ?_)
        (by simp only [List.length_cons] at hcp; omega)
        (by rw [hslen]
            simp only [List.length_append] at hhit ⊢
            push_cast at hhit ⊢
            omega)
        ?_
      · rcases List.mem_append.mp hj with hj1 | hj2
        · exact hlab j (by
            have := hperm.mem_iff.mp hj1
            simp only [List.flatten_cons, List.mem_append] at this ⊢
            tauto)
        · exact hlab j (by
            simp only [List.flatten_cons, List.mem_append] at hj2 ⊢
            tauto)
      · simp only [List.length_append, hslen] at hge ⊢
        simp only [List.flatten_cons, List.length_append] at hge
        push_cast at hge ⊢
        omega

theorem getJobs_recent_single (q : Query) (tp : Nat) (b s : List Job) (m : Int)
    (hsort : q.sortBy = "recent") (hm : jsNumber q.limit = some m) (hpos : 0 < m)
    (hb : b ≠ []) (htp : 0 < tp) (hhit : m ≤ (b.length : Int))
    (hs : sortJobsByAgoTime b = Except.ok s) :
    (getJobs q tp [Except.ok b]).1 = s.take m.toNat := by
  have hne := limit_ne_empty hm hpos
  have hslen : s.length = b.length := sortJobsByAgoTime_length hs
  rw [getJobs, getJobsLoop_ok_step_recent q tp htp hb hsort
        (by rw [List.nil_append]; exact hs),
      if_pos (show limitReached q s.length = true by
        rw [limitReached_eq hm hne, hslen]; exact decide_eq_true hhit)]
  dsimp only
  rw [hm]
  simp only [Option.getD_some]
  rw [jsSliceTo, if_pos (by omega : (0 : Int) ≤ m)]

theorem getJobs_limit_zero (q : Query) (tp : Nat) (b : List Job)
    (rest : List BatchOutcome) (hne : q.limit ≠ "") (hm : jsNumber q.limit = some 0)
    (hsort : q.sortBy ≠ "recent") (hb : b ≠ []) (htp : 0 < tp) :
    (getJobs q tp (Except.ok b :: rest)).1 = [] := by
  rw [getJobs, getJobsLoop_ok_step q tp htp hb hsort]
  have hcond : limitReached q ([] ++ b).length = true := by
    rw [limitReached_eq hm hne]
    exact decide_eq_true (Int.natCast_nonneg _)
  rw [if_pos hcond]
  dsimp only
  rw [hm]
  simp [jsSliceTo]

/-- C1 (amended): the controller enforces the configured limit as follows.  When
the limit is absent (empty string, the constructor default), no truncation occurs:
a run of non-empty batches returns exactly their concatenation in fetch order
(part one).  When a positive numeric limit n is configured and at least n records
are fetched, the returned list is exactly the first n records of fetch order
(part two), or has exactly n records taken from the re-sorted accumulation when
recency sort is requested (part three; part four exhibits them as the first n of
the post-sort order).  When the limit is the string "0", however, the first
non-empty batch is truncated to the empty list rather than left unbounded
(part five; the counterexample below refutes the original wording). -/
theorem getJobs_limit_enforcement :
    (∀ (q : Query) (tp : Nat) (bs : List (List Job)),
      q.limit = "" → q.sortBy ≠ "recent" → (∀ b ∈ bs, b ≠ []) → bs.length ≤ tp →
      (getJobs q tp (bs.map Except.ok)).1 = bs.flatten) ∧
    (∀ (q : Query) (tp : Nat) (bs : List (List Job)) (m : Int),
      jsNumber q.limit = some m → 0 < m → q.sortBy ≠ "recent" →
      (∀ b ∈ bs, b ≠ []) → bs.length ≤ tp → m ≤ (bs.flatten.length : Int) →
      (getJobs q tp (bs.map Except.ok)).1 = bs.flatten.take m.toNat ∧
      ((getJobs q tp (bs.map Except.ok)).1).length = m.toNat) ∧
    (∀ (q : Query) (tp : Nat) (bs : List (List Job)) (m : Int),
      jsNumber q.limit = some m → 0 < m → q.sortBy = "recent" →
      (∀ b ∈ bs, b ≠ []) →
      (∀ j ∈ bs.flatten, (convertToMinutes j.agoTime).isOk = true) →
      bs.length ≤ tp → m ≤ (bs.flatten.length : Int) →
      ((getJobs q tp (bs.map Except.ok)).1).length = m.toNat) ∧
    (∀ (q : Query) (tp : Nat) (b s : List Job) (m : Int),
      jsNumber q.limit = some m → 0 < m → q.sortBy = "recent" → b ≠ [] → 0 < tp →
      m ≤ (b.length : Int) → sortJobsByAgoTime b = Except.ok s →
      (getJobs q tp [Except.ok b]).1 = s.take m.toNat) ∧
    (∀ (q : Query) (tp : Nat) (b : List Job) (rest : List BatchOutcome),
      q.limit ≠ "" → jsNumber q.limit = some 0 → q.sortBy ≠ "recent" → b ≠ [] →
      0 < tp → (getJobs q tp (Except.ok b :: rest)).1 = []) := by
  refine ⟨?_, ?_, ?_, ?_, ?_⟩
  · intro q tp bs hlim hsort hne htp
    have h1 : (getJobsLoop q tp (bs.map Except.ok) 0 0 0 []).1 = [] ++ bs.flatten :=
      getJobsLoop_no_limit hsort hlim bs 0 0 [] hne (by omega)
    simpa [getJobs] using h1
  · intro q tp bs m hm hpos hsort hne htp hge
    have h1 : (getJobsLoop q tp (bs.map Except.ok) 0 0 0 []).1 =
        ([] ++ bs.flatten).take m.toNat :=
      getJobsLoop_limit hsort hm hpos bs 0 0 [] hne (by omega)
        (by simpa using hpos) (by simpa using hge)
    rw [List.nil_append] at h1
    have h2 : (getJobs q tp (bs.map Except.ok)).1 = bs.flatten.take m.toNat := by
      simpa [getJobs] using h1
    refine ⟨h2, ?_⟩
    rw [h2, List.length_take]
    have := Int.toNat_le.mpr hge
    omega
  · intro q tp bs m hm hpos hsort hne hlab htp hge
    have h1 : ((getJobsLoop q tp (bs.map Except.ok) 0 0 0 []).1).length = m.toNat :=
      getJobsLoop_limit_recent hsort hm hpos bs 0 0 [] hne
        (by simpa using hlab) (by omega) (by simpa using hpos) (by simpa using hge)
    simpa [getJobs] using h1
  · intro q tp b s m hm hpos hsort hb htp hhit hs
    exact getJobs_recent_single q tp b s m hsort hm hpos hb htp hhit hs
  · intro q tp b rest hne hm hsort hb htp
    exact getJobs_limit_zero q tp b rest hne hm hsort hb htp

/-- C1 counterexample: with the limit configured as "0" (a truthy string in the
source guard `this.limit && ...`), the first non-empty batch is truncated by
`slice(0, 0)` to the empty list; the claim says a limit of 0 means unbounded, which
at this input would return the fetched record. -/
theorem getJobs_limit_zero_not_unbounded :
    (getJobs { limit := "0" } 40 [Except.ok [jobHour]]).1 = [] ∧
    (getJobs { limit := "0" } 40 [Except.ok [jobHour]]).1 ≠ [jobHour] := by
  decide

/-- Witness for C1: every part of the amended limit statement applied at a small
concrete run. -/
theorem getJobs_limit_enforcement_witness :
    (getJobs { limit := "" } 2 ([[jobHour], [jobMinute]].map Except.ok)).1 =
      [[jobHour], [jobMinute]].flatten ∧
    (getJobs { limit := "1" } 1 ([[jobHour, jobMinute]].map Except.ok)).1 =
      [[jobHour, jobMinute]].flatten.take (Int.toNat 1) ∧
    ((getJobs { limit := "1", sortBy := "recent" } 1
        ([[jobHour, jobMinute]].map Except.ok)).1).length = Int.toNat 1 ∧
    (getJobs { limit := "1", sortBy := "recent" } 1
        [Except.ok [jobHour, jobMinute]]).1 = [jobMinute, jobHour].take (Int.toNat 1) ∧
    (getJobs { limit := "0" } 1 (Except.ok [jobHour] :: [])).1 = [] :=
  ⟨getJobs_limit_enforcement.1 { limit := "" } 2 [[jobHour], [jobMinute]]
      rfl (by decide) (by decide) (by decide),
   (getJobs_limit_enforcement.2.1 { limit := "1" } 1 [[jobHour, jobMinute]] 1
      (by decide) (by decide) (by decide) (by decide) (by decide) (by decide)).1,
   getJobs_limit_enforcement.2.2.1 { limit := "1", sortBy := "recent" } 1
      [[jobHour, jobMinute]] 1 (by decide) (by decide) rfl (by decide) (by decide)
      (by decide) (by decide),
   getJobs_limit_enforcement.2.2.2.1 { limit := "1", sortBy := "recent" } 1
      [jobHour, jobMinute] [jobMinute, jobHour] 1 (by decide) (by decide) rfl
      (by decide) (by decide) (by decide) (by decide),
   getJobs_limit_enforcement.2.2.2.2 { limit := "0" } 1 [jobHour] []
      (by decide) (by decide) (by decide) (by decide) (by decide)⟩

end LJA
